import Mathlib

/-!
Verification model of the EPON-Sim run orchestrator (`runner.py`).

The program is a directory-based task queue: task files sit in a pending
directory, workers claim them by an atomic rename into a running directory,
execute the first non-blank line as a command, and relocate the file to a
finished or failed directory according to the exit code.

The embedding below translates the functions of `runner.py` into pure Lean
definitions.  Filesystem and operating-system effects (which exception a
rename raises, whether the `os.replace` fallback succeeds) are supplied by
explicit environment values, so that each code path of the Python `try`
blocks corresponds to a constructor case here.
-/

namespace Runner

/-- Outcome of the operating-system calls made by one `atomic_move(src, dst)`
(`runner.py` lines 73-98).  `vanished`: `src.rename(dst)` raised
`FileNotFoundError` because the source no longer exists (another worker moved
it first).  `renameRaises`: `src.rename(dst)` raised some other `OSError`
(for example a permission error, or `FileExistsError` on platforms whose
rename refuses an existing target).  `replaceFails`: the `os.replace`
fallback also raised. -/
structure MoveEnv where
  vanished : Bool
  renameRaises : Bool
  replaceFails : Bool
deriving DecidableEq

/-- `atomic_move` (`runner.py` lines 73-98): try `src.rename(dst)`; on
`FileNotFoundError` return `False`; on any other `OSError` fall back to
`os.replace`, returning `True` when it succeeds and `False` when it also
raises.  A successful rename or replace returns `True`. -/
def atomic_move (env : MoveEnv) : Bool :=
  if env.vanished then false
  else if env.renameRaises then !env.replaceFails
  else true

/-- The destination path `running_dir / src.name` built at `runner.py`
line 120: the claimed file keeps its name unchanged. -/
def dstPath (runningDir name : String) : String :=
  runningDir ++ "/" ++ name

/-- The sorted directory listing of `runner.py` line 115:
`sorted([p for p in tasks_dir.iterdir() if p.is_file()])`, ordered by name. -/
def sortNames (l : List String) : List String :=
  l.mergeSort (fun a b => a ≤ b)

/-- The `for src in entries` loop of `claim_one_task` (`runner.py` lines
119-124): attempt an atomic move of each candidate in order and return the
destination path of the first move that succeeds, else `none`. -/
def claimLoop (runningDir : String) (env : String → MoveEnv) :
    List String → Option String
  | [] => none
  | n :: rest =>
      if atomic_move (env n) then some (dstPath runningDir n)
      else claimLoop runningDir env rest

/-- `claim_one_task` (`runner.py` lines 101-124).  `listing = none` models
`tasks_dir.iterdir()` raising `FileNotFoundError` (the pending directory does
not exist), which the function catches and turns into `None`.  Otherwise the
listed names are sorted and tried in order. -/
def claim_one_task (runningDir : String) (listing : Option (List String))
    (env : String → MoveEnv) : Option String :=
  match listing with
  | none => none
  | some l => claimLoop runningDir env (sortNames l)

/-- A view of the filesystem facts relevant to one rename: does the source
file still exist, and does the target name already exist in the running
directory. -/
structure FsView where
  srcExists : Bool
  dstExists : Bool
deriving DecidableEq

/-- The `MoveEnv` produced by the documented semantics of the operating-system
calls, given the filesystem view.  `Path.rename` raises `FileNotFoundError`
exactly when the source is gone; with `windowsSem = true` it raises
`FileExistsError` (an `OSError`) when the target exists, and with
`windowsSem = false` (POSIX) it overwrites the target silently.  The
`os.replace` fallback replaces an existing target on every platform (the
code's own comment at `runner.py` lines 92-93), so it fails only when the
source is gone. -/
def envOfFs (fs : FsView) (windowsSem : Bool) : MoveEnv :=
  { vanished := !fs.srcExists
    renameRaises := windowsSem && fs.dstExists
    replaceFails := !fs.srcExists }

/-! ### Race model for concurrent claims of one file

`atomic_move` renames of a single source path serialize at the filesystem:
each rename either observes the file (and may move it) or observes it gone.
The race of N workers over one pending file is therefore modelled as a
sequence of `claim_one_task` calls against a one-file listing, threading
through a flag that says whether the file is still in the pending
directory. -/

/-- The operating-system error behaviour of one worker's rename attempt in
the race.  Unlike `MoveEnv`, the `vanished` component is not free here: it
is determined by the shared filesystem state. -/
structure OsErr where
  renameRaises : Bool
  replaceFails : Bool
deriving DecidableEq

/-- The name of the single contended pending file in the race model. -/
def raceTask : String := "task"

/-- One worker's `claim_one_task` call against a pending directory whose
listing holds only `raceTask`; `present` says whether the file still exists
at the instant of this worker's rename. -/
def oneAttempt (present : Bool) (e : OsErr) : Option String :=
  claim_one_task "b_running" (some [raceTask])
    (fun _ => ⟨!present, e.renameRaises, e.replaceFails⟩)

/-- The serialized renames of N racing workers, in the order the filesystem
executes them: return each caller's observation (`true` = claimed the task),
updating the presence of the file after each attempt. -/
def raceClaims (present : Bool) : List OsErr → List Bool
  | [] => []
  | e :: es =>
      let got := (oneAttempt present e).isSome
      got :: raceClaims (present && !got) es

/-- The loop body of `read_first_nonempty_line` (`runner.py` lines 63-67):
return the first stripped line that is non-empty, else the empty string. -/
def firstNonempty : List String → String
  | [] => ""
  | s :: rest => if s = "" then firstNonempty rest else s

/-- Split a character list at newline characters (the `splitlines()` call of
`runner.py` line 64, with the newline character as separator). -/
def splitOnNl : List Char → List (List Char)
  | [] => [[]]
  | c :: cs =>
      match splitOnNl cs with
      | [] => [[c]]
      | l :: ls => if c = '\n' then [] :: l :: ls else (c :: l) :: ls

/-- The whitespace characters removed by Python's `str.strip()`. -/
def isBlankChar (c : Char) : Bool :=
  c == ' ' || c == '\t' || c == '\n' || c == '\r' || c == '\x0b' || c == '\x0c'

/-- `line.strip()` of `runner.py` line 65: drop leading and trailing
whitespace. -/
def stripChars (cs : List Char) : List Char :=
  ((cs.dropWhile isBlankChar).reverse.dropWhile isBlankChar).reverse

/-- `read_first_nonempty_line` (`runner.py` lines 58-70).  `content = none`
models `p.read_text` raising (unreadable file); the `except` branch returns
the empty string.  Otherwise the text is split into lines, each line is
stripped, and the first non-empty stripped line is returned (empty string
when there is none). -/
def read_first_nonempty_line (content : Option String) : String :=
  match content with
  | none => ""
  | some text =>
      firstNonempty
        ((splitOnNl text.data).map (fun cs => String.mk (stripChars cs)))

/-- Worker configuration relevant to one claimed-task iteration: the worker
id and the names of the finished directory and the optional failed
directory. -/
structure WorkerCfg where
  wid : Nat
  finishedName : String
  failedName : Option String
deriving DecidableEq

/-- Where the task file sits after one iteration: still in the running
directory, or relocated to the finished or failed directory. -/
inductive TaskLoc
  | running
  | finished
  | failed
deriving DecidableEq

/-- The console message of `runner.py` line 259 for an empty task file
(`target.name` equals the task's own name). -/
def emptyTaskMsg (wid : Nat) (name : String) : String :=
  "[worker " ++ toString wid ++ "] tarefa vazia: " ++ name ++ " -> " ++ name

/-- The console message of `runner.py` line 271 printed before executing. -/
def startMsg (wid : Nat) (inicioTs name : String) : String :=
  "[worker " ++ toString wid ++ "] inicio " ++ inicioTs
    ++ " | executando: " ++ name

/-- The console message of `runner.py` lines 294-299 printed after the
finalize move (the duration is kept as its formatted string). -/
def endMsg (wid : Nat) (fimTs durStr : String) (rc : Int)
    (name targetDirName : String) : String :=
  "[worker " ++ toString wid ++ "] fim " ++ fimTs ++ " | duracao " ++ durStr
    ++ "s | rc=" ++ toString rc ++ " | " ++ name ++ " -> "
    ++ targetDirName ++ "/" ++ name

/-- The target directory name chosen at `runner.py` lines 280-285:
`finished` for exit code 0, else the failed directory when configured and
`finished` otherwise. -/
def destDirName (cfg : WorkerCfg) (rc : Int) : String :=
  if rc = 0 then cfg.finishedName else cfg.failedName.getD cfg.finishedName

/-- The `TaskLoc` corresponding to `destDirName`. -/
def destLoc (cfg : WorkerCfg) (rc : Int) : TaskLoc :=
  if rc = 0 then .finished
  else if cfg.failedName.isSome then .failed else .finished

/-- Observable outcome of one claimed-task iteration of `worker_loop`:
whether the command executor ran, where the task file ends up, and the
console messages printed. -/
structure IterOut where
  executorInvoked : Bool
  loc : TaskLoc
  console : List String
deriving DecidableEq

/-- Lines 252-299 of `worker_loop`: read the claimed task's first non-empty
line; if there is none, move the file to the failed directory (finished when
no failed directory is configured) without executing, printing the
empty-task message; otherwise execute the command, move the file according
to the exit code, and print the start and end messages.  The result of the
finalize `atomic_move` is ignored by the code — when it is `false` the file
stays in the running directory.  `exec` is the `run_command` oracle giving
the child's exit code; the timestamps and formatted duration are
parameters. -/
def processClaimedTask (cfg : WorkerCfg) (name : String)
    (content : Option String) (exec : String → Int) (finEnv : MoveEnv)
    (inicioTs fimTs durStr : String) : IterOut :=
  let cmd := read_first_nonempty_line content
  if cmd = "" then
    { executorInvoked := false
      loc := if atomic_move finEnv then
               (if cfg.failedName.isSome then .failed else .finished)
             else .running
      console := [emptyTaskMsg cfg.wid name] }
  else
    let rc := exec cmd
    { executorInvoked := true
      loc := if atomic_move finEnv then destLoc cfg rc else .running
      console := [startMsg cfg.wid inicioTs name,
                  endMsg cfg.wid fimTs durStr rc name (destDirName cfg rc)] }

/-- A task content is blank when it is unreadable or every one of its lines
strips to nothing. -/
def BlankContent (content : Option String) : Prop :=
  content = none
    ∨ ∃ t, content = some t ∧ ∀ cs ∈ splitOnNl t.data, stripChars cs = []

/-! ### The per-task log file

The log's on-disk content is modelled as the list of chunks written to it,
and the core's accesses to it as a list of file operations, so that
append-only behaviour and the absence of deletion are visible in the
operation list itself. -/

/-- The header written at `runner.py` line 160. -/
def runHeader (cmdline : String) : String :=
  "CMD: " ++ cmdline ++ "\n\n"

/-- The footer written at `runner.py` line 184. -/
def runFooter (rc : Int) : String :=
  "\n\nRETURN_CODE: " ++ toString rc ++ "\n"

/-- The timing block appended by `append_timing_to_log` (`runner.py` lines
132-136); the formatted duration is kept as a string. -/
def timingBlock (startTs endTs durStr : String) : String :=
  "\nSTART_TS: " ++ startTs ++ "\n" ++ "END_TS: " ++ endTs ++ "\n"
    ++ "DURATION_S: " ++ durStr ++ "\n"

/-- A file operation performed on the log file.  `createTruncate` is an open
in mode `w`, `openAppend` an open in mode `a`, `write` a chunk written to
the open handle; `delete` is an unlink, listed so that its absence from the
core's operation sequences can be stated. -/
inductive FileOp
  | createTruncate
  | openAppend
  | write (chunk : String)
  | delete
deriving DecidableEq

/-- Effect of one file operation on the file's content (`none` = the file
does not exist; chunks of an existing file are kept in write order). -/
def applyOp : Option (List String) → FileOp → Option (List String)
  | _, .createTruncate => some []
  | f, .openAppend => some (f.getD [])
  | f, .write c => some ((f.getD []) ++ [c])
  | _, .delete => none

/-- Effect of a sequence of file operations. -/
def applyOps (f : Option (List String)) (ops : List FileOp) :
    Option (List String) :=
  ops.foldl applyOp f

/-- The log-file operations of `run_command` with a log target (`runner.py`
lines 156-185): create the file, write the `CMD` header, stream the child's
combined stdout/stderr into it, write the `RETURN_CODE` footer. -/
def run_command_ops (cmdline childOutput : String) (rc : Int) : List FileOp :=
  [.createTruncate, .write (runHeader cmdline), .write childOutput,
   .write (runFooter rc)]

/-- The log-file operations of `append_timing_to_log` (`runner.py` lines
127-139): open in append mode and write the timing block. -/
def append_timing_ops (startTs endTs durStr : String) : List FileOp :=
  [.openAppend, .write (timingBlock startTs endTs durStr)]

/-- Every log-file operation the core performs for one executed task:
`run_command` during execution, then `append_timing_to_log` after the
process exits (`worker_loop` lines 273 and 290-291). -/
def task_log_ops (cmdline childOutput : String) (rc : Int)
    (startTs endTs durStr : String) : List FileOp :=
  run_command_ops cmdline childOutput rc
    ++ append_timing_ops startTs endTs durStr

/-! ### Idle timing

Time is modelled by the values of the monotonic clock at the loop's
observation points, as rational numbers. -/

/-- The idle-timeout test of `runner.py` line 238:
`idle_timeout > 0 and (time.monotonic() - idle_start) >= idle_timeout`,
applied to the elapsed idle duration. -/
def idleCheck (idleTimeout elapsed : ℚ) : Bool :=
  decide (0 < idleTimeout) && decide (idleTimeout ≤ elapsed)

/-- Idle time elapsed after `n` sleeps of the polling loop, for a given
sequence of sleep durations (`runner.py` line 241 sleeps
`poll + uniform(0, jitter)` between consecutive failed claims). -/
def idleElapsed (sleeps : ℕ → ℚ) : ℕ → ℚ
  | 0 => 0
  | n + 1 => idleElapsed sleeps n + sleeps n

/-- One observable event of the worker loop, carrying the value of the
monotonic clock at that point: a claim attempt that found no task, or a
claim that succeeded. -/
inductive WEvent
  | claimFail (now : ℚ)
  | claimSuccess (now : ℚ)

/-- The idle-tracking state of `worker_loop`: the `idle_start` monotonic
instant and whether the loop has returned. -/
structure IdleSt where
  idleStart : ℚ
  terminated : Bool

/-- One iteration of `worker_loop` as far as idle tracking is concerned
(`runner.py` lines 232-245): a failed claim returns when the idle check
fires and otherwise leaves `idle_start` unchanged; a successful claim resets
`idle_start` to the current monotonic instant (line 245) — at claim time,
before the task is executed. -/
def stepIdle (idleTimeout : ℚ) (st : IdleSt) (ev : WEvent) : IdleSt :=
  if st.terminated then st
  else
    match ev with
    | .claimFail now =>
        if idleCheck idleTimeout (now - st.idleStart) then
          { st with terminated := true }
        else st
    | .claimSuccess now => { idleStart := now, terminated := false }

/-- The worker loop's idle tracking over a sequence of events, starting from
clock value `t0` (line 230 initializes `idle_start` at worker start). -/
def runIdle (idleTimeout : ℚ) (st : IdleSt) (es : List WEvent) : IdleSt :=
  es.foldl (stepIdle idleTimeout) st

/-- The monotonic instant of the most recent successful claim in a trace,
or the worker's start instant when there is none. -/
def lastSuccessTime (t0 : ℚ) : List WEvent → ℚ
  | [] => t0
  | .claimSuccess t :: es => lastSuccessTime t es
  | .claimFail _ :: es => lastSuccessTime t0 es

/-! ### Basic facts about the claim loop -/

theorem claimLoop_eq_find (runningDir : String) (env : String → MoveEnv)
    (l : List String) :
    claimLoop runningDir env l
      = (l.find? (fun n => atomic_move (env n))).map (dstPath runningDir) := by
  induction l with
  | nil => rfl
  | cons n rest ih =>
      by_cases h : atomic_move (env n) = true
      · simp [claimLoop, h, List.find?_cons]
      · simp only [Bool.not_eq_true] at h
        simp [claimLoop, h, List.find?_cons, ih]

theorem claimLoop_none_iff (runningDir : String) (env : String → MoveEnv)
    (l : List String) :
    claimLoop runningDir env l = none
      ↔ ∀ n ∈ l, atomic_move (env n) = false := by
  rw [claimLoop_eq_find]
  simp [List.find?_eq_none]

theorem sortNames_perm (l : List String) : (sortNames l).Perm l :=
  List.mergeSort_perm l _

theorem sortNames_sorted (l : List String) :
    List.Sorted (· ≤ ·) (sortNames l) :=
  List.sorted_mergeSort' l

theorem sortNames_singleton (a : String) : sortNames [a] = [a] := by
  simp [sortNames, List.mergeSort]

theorem oneAttempt_absent (e : OsErr) : oneAttempt false e = none := by
  simp [oneAttempt, claim_one_task, sortNames_singleton, claimLoop, atomic_move]

theorem oneAttempt_present_isSome (e : OsErr) :
    (oneAttempt true e).isSome = !(e.renameRaises && e.replaceFails) := by
  simp only [oneAttempt, claim_one_task, sortNames_singleton, claimLoop,
    atomic_move]
  cases h : e.renameRaises <;> cases h2 : e.replaceFails <;> simp [h, h2]

theorem raceClaims_absent (es : List OsErr) :
    raceClaims false es = List.replicate es.length false := by
  induction es with
  | nil => rfl
  | cons e es ih =>
      simp [raceClaims, oneAttempt_absent, ih, List.replicate_succ]

theorem raceClaims_length (present : Bool) (es : List OsErr) :
    (raceClaims present es).length = es.length := by
  induction es generalizing present with
  | nil => rfl
  | cons e es ih => simp [raceClaims, ih]

theorem count_true_add_count_false (l : List Bool) :
    l.count true + l.count false = l.length := by
  induction l with
  | nil => rfl
  | cons b l ih => cases b <;> simp [List.count_cons, ih] <;> omega

theorem raceClaims_count_le_one (present : Bool) (es : List OsErr) :
    (raceClaims present es).count true ≤ 1 := by
  induction es generalizing present with
  | nil => simp [raceClaims]
  | cons e es ih =>
      cases present with
      | false =>
          simp [raceClaims, oneAttempt_absent, raceClaims_absent,
            List.count_replicate]
      | true =>
          cases h : (oneAttempt true e).isSome with
          | false =>
              simpa [raceClaims, h, List.count_cons] using ih true
          | true =>
              simp [raceClaims, h, List.count_cons, raceClaims_absent,
                List.count_replicate]

theorem raceClaims_benign_head (e : OsErr) (es : List OsErr)
    (hb : e.renameRaises = false ∨ e.replaceFails = false) :
    raceClaims true (e :: es) = true :: List.replicate es.length false := by
  have hgot : (oneAttempt true e).isSome = true := by
    rw [oneAttempt_present_isSome]
    rcases hb with h | h <;> simp [h]
  simp [raceClaims, hgot, raceClaims_absent]

theorem firstNonempty_all_blank (L : List String) (h : ∀ s ∈ L, s = "") :
    firstNonempty L = "" := by
  induction L with
  | nil => rfl
  | cons s rest ih =>
      have hs := h s (List.mem_cons_self s rest)
      simp only [firstNonempty, hs, if_pos rfl]
      exact ih fun t ht => h t (List.mem_cons_of_mem s ht)

theorem read_blank_content (content : Option String) (h : BlankContent content) :
    read_first_nonempty_line content = "" := by
  rcases h with h | ⟨t, rfl, hb⟩
  · rw [h]; rfl
  · refine firstNonempty_all_blank _ ?_
    intro s hs
    rcases List.mem_map.mp hs with ⟨line, hline, rfl⟩
    rw [hb line hline]

theorem idleElapsed_lower (poll : ℚ) (sleeps : ℕ → ℚ)
    (hlo : ∀ n, poll ≤ sleeps n) (n : ℕ) :
    n * poll ≤ idleElapsed sleeps n := by
  induction n with
  | zero => simp [idleElapsed]
  | succ k ih =>
      have := hlo k
      have : (k + 1 : ℚ) * poll ≤ idleElapsed sleeps k + sleeps k := by
        have hk : (k : ℚ) * poll ≤ idleElapsed sleeps k := ih
        nlinarith [hlo k]
      simpa [idleElapsed, Nat.cast_succ] using this

theorem idleElapsed_reaches (T poll : ℚ) (sleeps : ℕ → ℚ)
    (hlo : ∀ n, poll ≤ sleeps n) (hp : 0 < poll) :
    ∃ n, T ≤ idleElapsed sleeps n := by
  obtain ⟨n, hn⟩ := exists_nat_gt (T / poll)
  refine ⟨n, ?_⟩
  have h1 : T < n * poll := by
    have := (div_lt_iff₀ hp).mp hn
    linarith
  exact le_of_lt (lt_of_lt_of_le h1 (idleElapsed_lower poll sleeps hlo n))

theorem runIdle_of_terminated (T s : ℚ) (es : List WEvent) :
    runIdle T ⟨s, true⟩ es = ⟨s, true⟩ := by
  induction es with
  | nil => rfl
  | cons ev es ih => simpa [runIdle, stepIdle, List.foldl] using ih

end Runner

/-! ### C9: missing pending directory -/

/-- C9: if the pending directory itself does not exist (the directory listing
raises `FileNotFoundError`, modelled by `listing = none`), `claim_one_task`
returns `none` ("no task available") instead of propagating an exception to
its caller. -/
theorem C9_missing_pending_dir_returns_none (runningDir : String)
    (env : String → Runner.MoveEnv) :
    Runner.claim_one_task runningDir none env = none := rfl

/-! ### C1: at most one claim succeeds system-wide -/

/-- C1: when N workers race to claim the same pending file, at most one of
the serialized rename attempts ever succeeds (whatever the initial presence
of the file and whatever operating-system errors occur); and when the file is
pending and no extraneous OS error makes both the rename and the `os.replace`
fallback fail, exactly one attempt succeeds while the other N−1 callers
observe `false` ("task not available"). -/
theorem C1_at_most_one_claim (present : Bool) (es : List Runner.OsErr)
    (hne : es ≠ [])
    (hb : ∀ e ∈ es, e.renameRaises = false ∨ e.replaceFails = false) :
    (Runner.raceClaims present es).count true ≤ 1
    ∧ (Runner.raceClaims true es).count true = 1
    ∧ (Runner.raceClaims true es).count false = es.length - 1 := by
  refine ⟨Runner.raceClaims_count_le_one present es, ?_⟩
  match es, hne with
  | e :: es, _ =>
      have hbe := hb e (List.mem_cons_self e es)
      rw [Runner.raceClaims_benign_head e es hbe]
      constructor
      · simp [List.count_cons, List.count_replicate]
      · simp [List.count_cons, List.count_replicate]

/-- Witness for C1: three workers race for the pending file, none of them
hitting an extraneous OS error; exactly one claim succeeds and the two
losers observe `false`. -/
theorem C1_at_most_one_claim_witness :
    (Runner.raceClaims true [⟨false, false⟩, ⟨false, true⟩, ⟨true, false⟩]).count true ≤ 1
    ∧ (Runner.raceClaims true [⟨false, false⟩, ⟨false, true⟩, ⟨true, false⟩]).count true = 1
    ∧ (Runner.raceClaims true [⟨false, false⟩, ⟨false, true⟩, ⟨true, false⟩]).count false
        = [(⟨false, false⟩ : Runner.OsErr), ⟨false, true⟩, ⟨true, false⟩].length - 1 :=
  C1_at_most_one_claim true [⟨false, false⟩, ⟨false, true⟩, ⟨true, false⟩]
    (by simp) (by intro e he; fin_cases he <;> simp)

/-! ### C2: when `claim_one_task` reports "no task available" -/

/-- C2 counterexample: the claim lists "the target name already exists in the
running directory" as a case in which the rename fails and contributes to a
`None` result.  In the code the opposite happens: with the source file
present and the target name occupied, `atomic_move` returns `True` — under
POSIX rename semantics the rename itself overwrites the target, and under
Windows semantics the raised `FileExistsError` is caught and the `os.replace`
fallback substitutes the target (the code's own comment, lines 92-93).  So a
`claim_one_task` call whose only candidate collides with an existing running
name returns the claimed handle, not `None`. -/
theorem C2_counterexample :
    Runner.atomic_move (Runner.envOfFs ⟨true, true⟩ false) = true
    ∧ Runner.atomic_move (Runner.envOfFs ⟨true, true⟩ true) = true
    ∧ Runner.claim_one_task "b_running" (some ["a.txt"])
        (fun _ => Runner.envOfFs ⟨true, true⟩ true) = some "b_running/a.txt"
    ∧ Runner.claim_one_task "b_running" (some ["a.txt"])
        (fun _ => Runner.envOfFs ⟨true, true⟩ true) ≠ none := by
  refine ⟨rfl, rfl, ?_, ?_⟩ <;>
    simp [Runner.claim_one_task, Runner.sortNames_singleton, Runner.claimLoop,
      Runner.atomic_move, Runner.envOfFs, Runner.dstPath]

/-- C2 (amended): `claim_one_task` returns `none` exactly when the
pending-directory listing is empty or every attempted rename fails — which
includes the case where the source file vanished because another worker
claimed it (`vanished = true` forces `atomic_move = false`), but not the case
of an already-occupied target name, which the move overwrites. -/
theorem C2_amended_claim_none_iff (runningDir : String) (l : List String)
    (env : String → Runner.MoveEnv) (r p : Bool) :
    (Runner.claim_one_task runningDir (some l) env = none
      ↔ ∀ n ∈ l, Runner.atomic_move (env n) = false)
    ∧ Runner.atomic_move ⟨true, r, p⟩ = false := by
  constructor
  · have hm : ∀ n, n ∈ Runner.sortNames l ↔ n ∈ l := fun n =>
      (Runner.sortNames_perm l).mem_iff
    rw [show Runner.claim_one_task runningDir (some l) env
          = Runner.claimLoop runningDir env (Runner.sortNames l) from rfl,
      Runner.claimLoop_none_iff]
    exact ⟨fun h n hn => h n ((hm n).mpr hn), fun h n hn => h n ((hm n).mp hn)⟩
  · rfl

/-! ### C7: the claiming algorithm -/

/-- C7: `claim_one_task` sorts the listed names, attempts an atomic rename of
each candidate in that sorted order, and returns the handle
`running_dir/<unchanged name>` of the first candidate whose rename succeeds:
its result is exactly `find?` of the rename-success test over the sorted
listing, which is a sorted permutation of the directory listing. -/
theorem C7_claim_scans_sorted_listing (runningDir : String) (l : List String)
    (env : String → Runner.MoveEnv) :
    Runner.claim_one_task runningDir (some l) env
      = ((Runner.sortNames l).find? (fun n => Runner.atomic_move (env n))).map
          (Runner.dstPath runningDir)
    ∧ List.Sorted (· ≤ ·) (Runner.sortNames l)
    ∧ (Runner.sortNames l).Perm l :=
  ⟨Runner.claimLoop_eq_find runningDir env (Runner.sortNames l),
   Runner.sortNames_sorted l, Runner.sortNames_perm l⟩

/-! ### C3: result routing at finalize -/

/-- C3: when the finalize rename goes through, a task that executed with exit
code 0 ends in the finished directory; a task with a nonzero exit code — or a
no-op failure, i.e. a task with no extractable command — ends in the failed
directory when one is configured and in the finished directory otherwise. -/
theorem C3_result_routing (cfg : Runner.WorkerCfg) (name : String)
    (content : Option String) (exec : String → Int) (finEnv : Runner.MoveEnv)
    (inicioTs fimTs durStr : String)
    (henv : Runner.atomic_move finEnv = true) :
    (Runner.read_first_nonempty_line content ≠ "" →
      exec (Runner.read_first_nonempty_line content) = 0 →
      (Runner.processClaimedTask cfg name content exec finEnv
          inicioTs fimTs durStr).loc = Runner.TaskLoc.finished)
    ∧ (Runner.read_first_nonempty_line content ≠ "" →
      exec (Runner.read_first_nonempty_line content) ≠ 0 →
      (Runner.processClaimedTask cfg name content exec finEnv
          inicioTs fimTs durStr).loc
        = if cfg.failedName.isSome then Runner.TaskLoc.failed
          else Runner.TaskLoc.finished)
    ∧ (Runner.read_first_nonempty_line content = "" →
      (Runner.processClaimedTask cfg name content exec finEnv
          inicioTs fimTs durStr).loc
        = if cfg.failedName.isSome then Runner.TaskLoc.failed
          else Runner.TaskLoc.finished) := by
  refine ⟨?_, ?_, ?_⟩
  · intro hcmd hrc
    simp [Runner.processClaimedTask, hcmd, henv, Runner.destLoc, hrc]
  · intro hcmd hrc
    simp [Runner.processClaimedTask, hcmd, henv, Runner.destLoc, hrc]
  · intro hcmd
    simp [Runner.processClaimedTask, hcmd, henv]

/-- Witness for C3: with a failed directory configured, a task whose command
exits with code 1 ends in the failed directory. -/
theorem C3_result_routing_witness :
    (Runner.processClaimedTask ⟨0, "c_finished", some "d_failed"⟩ "a.txt"
        (some "exit 1") (fun _ => 1) ⟨false, false, false⟩
        "t1" "t2" "1.00").loc = Runner.TaskLoc.failed := by
  have h := (C3_result_routing ⟨0, "c_finished", some "d_failed"⟩ "a.txt"
      (some "exit 1") (fun _ => 1) ⟨false, false, false⟩
      "t1" "t2" "1.00" rfl).2.1 (by decide) (by decide)
  simpa using h

/-! ### C4: empty-content routing -/

/-- C4: a claimed task file whose content is unreadable or only blank lines
is routed to the failed directory (finished when no failed directory is
configured) without invoking the command executor; the empty-task message is
printed to the console; the worker raises nothing (the iteration is a total
function yielding an ordinary `IterOut`). -/
theorem C4_empty_content_routing (cfg : Runner.WorkerCfg) (name : String)
    (content : Option String) (exec : String → Int) (finEnv : Runner.MoveEnv)
    (inicioTs fimTs durStr : String)
    (hblank : Runner.BlankContent content) :
    (Runner.processClaimedTask cfg name content exec finEnv
        inicioTs fimTs durStr).executorInvoked = false
    ∧ (Runner.processClaimedTask cfg name content exec finEnv
        inicioTs fimTs durStr).console = [Runner.emptyTaskMsg cfg.wid name]
    ∧ (Runner.atomic_move finEnv = true →
      (Runner.processClaimedTask cfg name content exec finEnv
          inicioTs fimTs durStr).loc
        = if cfg.failedName.isSome then Runner.TaskLoc.failed
          else Runner.TaskLoc.finished) := by
  have hcmd := Runner.read_blank_content content hblank
  refine ⟨?_, ?_, ?_⟩
  · simp [Runner.processClaimedTask, hcmd]
  · simp [Runner.processClaimedTask, hcmd]
  · intro henv
    simp [Runner.processClaimedTask, hcmd, henv]

/-- Witness for C4: a task file holding only a blank line is routed to the
failed directory without executing anything. -/
theorem C4_empty_content_routing_witness :
    (Runner.processClaimedTask ⟨0, "c_finished", some "d_failed"⟩ "a.txt"
        (some "\n  \n") (fun _ => 0) ⟨false, false, false⟩
        "t1" "t2" "0.00").executorInvoked = false
    ∧ (Runner.processClaimedTask ⟨0, "c_finished", some "d_failed"⟩ "a.txt"
        (some "\n  \n") (fun _ => 0) ⟨false, false, false⟩
        "t1" "t2" "0.00").console = [Runner.emptyTaskMsg 0 "a.txt"]
    ∧ (Runner.processClaimedTask ⟨0, "c_finished", some "d_failed"⟩ "a.txt"
        (some "\n  \n") (fun _ => 0) ⟨false, false, false⟩
        "t1" "t2" "0.00").loc = Runner.TaskLoc.failed := by
  have h := C4_empty_content_routing ⟨0, "c_finished", some "d_failed"⟩ "a.txt"
      (some "\n  \n") (fun _ => 0) ⟨false, false, false⟩ "t1" "t2" "0.00"
      (Or.inr ⟨"\n  \n", rfl, by decide⟩)
  exact ⟨h.1, h.2.1, by simpa using h.2.2 rfl⟩

/-! ### C6: relocation failure during finalize -/

/-- C6 counterexample: the claim requires the finalize relocation failure to
be logged.  In the code the result of the finalize `atomic_move` is ignored
(`runner.py` line 287) and the very same console messages are printed whether
the move succeeded or failed — here, concretely, a run whose finalize move
fails (rename raises and the `os.replace` fallback fails too) leaves the task
in the running directory yet prints exactly the messages of the successful
run, so no observable output records the failure. -/
theorem C6_counterexample :
    (Runner.processClaimedTask ⟨0, "c_finished", some "d_failed"⟩ "a.txt"
        (some "exit 0") (fun _ => 0) ⟨false, true, true⟩
        "t1" "t2" "1.00").console
      = (Runner.processClaimedTask ⟨0, "c_finished", some "d_failed"⟩ "a.txt"
          (some "exit 0") (fun _ => 0) ⟨false, false, false⟩
          "t1" "t2" "1.00").console
    ∧ (Runner.processClaimedTask ⟨0, "c_finished", some "d_failed"⟩ "a.txt"
        (some "exit 0") (fun _ => 0) ⟨false, true, true⟩
        "t1" "t2" "1.00").loc = Runner.TaskLoc.running
    ∧ (Runner.processClaimedTask ⟨0, "c_finished", some "d_failed"⟩ "a.txt"
        (some "exit 0") (fun _ => 0) ⟨false, false, false⟩
        "t1" "t2" "1.00").loc = Runner.TaskLoc.finished := by
  refine ⟨?_, ?_, ?_⟩ <;> decide

/-- C6 (amended): a finalize relocation failure is swallowed — the exceptions
are caught inside `atomic_move`, the worker ignores its result and continues
normally — and the task file then remains in the running directory; but the
failure is not logged: the console output never depends on the outcome of
the finalize move. -/
theorem C6_amended_move_failure_swallowed_unlogged (cfg : Runner.WorkerCfg)
    (name : String) (content : Option String) (exec : String → Int)
    (finEnv finEnv2 : Runner.MoveEnv) (inicioTs fimTs durStr : String) :
    (Runner.processClaimedTask cfg name content exec finEnv
        inicioTs fimTs durStr).console
      = (Runner.processClaimedTask cfg name content exec finEnv2
          inicioTs fimTs durStr).console
    ∧ (Runner.atomic_move finEnv = false →
      (Runner.processClaimedTask cfg name content exec finEnv
          inicioTs fimTs durStr).loc = Runner.TaskLoc.running) := by
  constructor
  · by_cases hcmd : Runner.read_first_nonempty_line content = "" <;>
      simp [Runner.processClaimedTask, hcmd]
  · intro henv
    by_cases hcmd : Runner.read_first_nonempty_line content = "" <;>
      simp [Runner.processClaimedTask, hcmd, henv]

/-- Witness for C6 (amended): a concrete failing finalize move leaves the
task in the running directory and prints the same messages as a succeeding
one. -/
theorem C6_amended_witness :
    (Runner.processClaimedTask ⟨1, "c_finished", none⟩ "b.txt"
        (some "run") (fun _ => 0) ⟨false, true, true⟩ "t1" "t2" "2.00").console
      = (Runner.processClaimedTask ⟨1, "c_finished", none⟩ "b.txt"
          (some "run") (fun _ => 0) ⟨false, false, false⟩
          "t1" "t2" "2.00").console
    ∧ (Runner.processClaimedTask ⟨1, "c_finished", none⟩ "b.txt"
        (some "run") (fun _ => 0) ⟨false, true, true⟩
        "t1" "t2" "2.00").loc = Runner.TaskLoc.running := by
  have h := C6_amended_move_failure_swallowed_unlogged ⟨1, "c_finished", none⟩
      "b.txt" (some "run") (fun _ => 0) ⟨false, true, true⟩
      ⟨false, false, false⟩ "t1" "t2" "2.00"
  exact ⟨h.1, h.2 rfl⟩

/-! ### C5: idle-timeout termination -/

/-- C5: with idle-timeout `T > 0` and no pending tasks, the idle check of the
worker loop fires at some poll — the first firing happens at an elapsed idle
time of at most `T + poll + jitter` seconds, so the worker self-terminates
within that bound of becoming idle; with `T = 0` the check never fires and
the worker keeps polling indefinitely.  Each sleep between failed claims
lasts `poll + uniform(0, jitter)`, hence between `poll` and `poll + jitter`
seconds. -/
theorem C5_idle_timeout (T poll jitter : ℚ) (sleeps : ℕ → ℚ)
    (hlo : ∀ n, poll ≤ sleeps n) (hhi : ∀ n, sleeps n ≤ poll + jitter)
    (hp : 0 < poll) :
    (0 < T → ∃ n,
      Runner.idleCheck T (Runner.idleElapsed sleeps n) = true
      ∧ (∀ m < n, Runner.idleCheck T (Runner.idleElapsed sleeps m) = false)
      ∧ Runner.idleElapsed sleeps n ≤ T + poll + jitter)
    ∧ (T = 0 → ∀ n, Runner.idleCheck T (Runner.idleElapsed sleeps n) = false) := by
  constructor
  · intro hT
    have hex : ∃ n, T ≤ Runner.idleElapsed sleeps n :=
      Runner.idleElapsed_reaches T poll sleeps hlo hp
    classical
    refine ⟨Nat.find hex, ?_, ?_, ?_⟩
    · simp [Runner.idleCheck, hT, Nat.find_spec hex]
    · intro m hm
      have := Nat.find_min hex hm
      simp [Runner.idleCheck, this]
    · rcases hn : Nat.find hex with _ | k
      · exfalso
        have h0 : T ≤ Runner.idleElapsed sleeps 0 := hn ▸ Nat.find_spec hex
        simp [Runner.idleElapsed] at h0
        linarith
      · have hlt : Runner.idleElapsed sleeps k < T := by
          have hk : k < Nat.find hex := by omega
          have := Nat.find_min hex hk
          linarith [not_le.mp this]
        have hstep := hhi k
        have : Runner.idleElapsed sleeps (k + 1)
            = Runner.idleElapsed sleeps k + sleeps k := rfl
        rw [this]
        linarith
  · intro hT n
    simp [Runner.idleCheck, hT]

/-- Witness for C5: poll = 1, jitter = 0, constant sleeps of one second; with
idle-timeout 1 the check first fires within 1 + 1 + 0 seconds, and with the
same sleeps the conclusion's never-fires half is vacuously available. -/
theorem C5_idle_timeout_witness :
    ((0:ℚ) < 1 → ∃ n,
      Runner.idleCheck 1 (Runner.idleElapsed (fun _ => (1:ℚ)) n) = true
      ∧ (∀ m < n,
          Runner.idleCheck 1 (Runner.idleElapsed (fun _ => (1:ℚ)) m) = false)
      ∧ Runner.idleElapsed (fun _ => (1:ℚ)) n ≤ 1 + 1 + 0)
    ∧ ((1:ℚ) = 0 → ∀ n,
        Runner.idleCheck 1 (Runner.idleElapsed (fun _ => (1:ℚ)) n) = false) :=
  C5_idle_timeout 1 1 0 (fun _ => (1:ℚ)) (fun _ => le_refl 1)
    (fun _ => by norm_num) (by norm_num)

/-! ### C8: the per-task log file -/

/-- C8: for every executed task the core's log-file operations create the
file at execution start and write the `CMD` header, stream the child's
combined output, write the `RETURN_CODE` footer, and append the timing block
after the process exits; the content after `run_command` is extended, never
rewritten, by `append_timing_to_log`, and no operation in the core's
sequence deletes the file. -/
theorem C8_log_lifecycle (cmdline childOutput : String) (rc : Int)
    (startTs endTs durStr : String) (f0 : Option (List String)) :
    Runner.applyOps f0 (Runner.run_command_ops cmdline childOutput rc)
      = some [Runner.runHeader cmdline, childOutput, Runner.runFooter rc]
    ∧ Runner.applyOps f0
        (Runner.task_log_ops cmdline childOutput rc startTs endTs durStr)
      = some [Runner.runHeader cmdline, childOutput, Runner.runFooter rc,
              Runner.timingBlock startTs endTs durStr]
    ∧ Runner.FileOp.delete
        ∉ Runner.task_log_ops cmdline childOutput rc startTs endTs durStr := by
  refine ⟨rfl, rfl, ?_⟩
  simp [Runner.task_log_ops, Runner.run_command_ops, Runner.append_timing_ops]

/-! ### C10: what the idle timer measures -/

/-- C10 counterexample: the claim says time spent executing tasks never
accumulates toward the idle-timeout.  But `idle_start` is reset at claim
time, before the task runs, so the execution time of the claimed task is
part of the interval measured at the next failed claim: with idle-timeout
10, a worker that claims at instant 0, executes until instant 100 and then
finds no task terminates at that very first idle check, although its
contiguous idle time at that point is 0. -/
theorem C10_counterexample :
    (Runner.runIdle 10 ⟨0, false⟩
        [Runner.WEvent.claimSuccess 0, Runner.WEvent.claimFail 100]).terminated
      = true := by
  simp [Runner.runIdle, Runner.stepIdle, Runner.idleCheck]
  norm_num

/-- C10 (amended): the idle timer measures the interval since the most
recent successful claim (or since worker start): whenever the loop has not
terminated, `idle_start` equals the monotonic instant of the last successful
claim, the reset happening at claim time — before the task executes, so the
interval measured at the next idle check includes that task's execution
time. -/
theorem C10_amended_idle_start_tracks_last_claim (T t0 : ℚ)
    (es : List Runner.WEvent)
    (h : (Runner.runIdle T ⟨t0, false⟩ es).terminated = false) :
    (Runner.runIdle T ⟨t0, false⟩ es).idleStart = Runner.lastSuccessTime t0 es := by
  induction es generalizing t0 with
  | nil => rfl
  | cons ev es ih =>
      cases ev with
      | claimSuccess t =>
          have hstep : Runner.stepIdle T ⟨t0, false⟩ (Runner.WEvent.claimSuccess t)
              = ⟨t, false⟩ := by simp [Runner.stepIdle]
          rw [show Runner.runIdle T ⟨t0, false⟩ (Runner.WEvent.claimSuccess t :: es)
                = Runner.runIdle T (Runner.stepIdle T ⟨t0, false⟩
                    (Runner.WEvent.claimSuccess t)) es from rfl, hstep] at h ⊢
          exact ih t h
      | claimFail t =>
          by_cases hc : Runner.idleCheck T (t - t0) = true
          · exfalso
            have hstep : Runner.stepIdle T ⟨t0, false⟩ (Runner.WEvent.claimFail t)
                = ⟨t0, true⟩ := by simp [Runner.stepIdle, hc]
            rw [show Runner.runIdle T ⟨t0, false⟩ (Runner.WEvent.claimFail t :: es)
                  = Runner.runIdle T (Runner.stepIdle T ⟨t0, false⟩
                      (Runner.WEvent.claimFail t)) es from rfl, hstep,
              Runner.runIdle_of_terminated] at h
            simp at h
          · have hstep : Runner.stepIdle T ⟨t0, false⟩ (Runner.WEvent.claimFail t)
                = ⟨t0, false⟩ := by
              simp only [Bool.not_eq_true] at hc
              simp [Runner.stepIdle, hc]
            rw [show Runner.runIdle T ⟨t0, false⟩ (Runner.WEvent.claimFail t :: es)
                  = Runner.runIdle T (Runner.stepIdle T ⟨t0, false⟩
                      (Runner.WEvent.claimFail t)) es from rfl, hstep] at h ⊢
            exact ih t0 h

/-- Witness for C10 (amended): a worker that starts at instant 0, claims at
instant 1 and fails a claim at instant 2 with idle-timeout 10 has not
terminated, and its `idle_start` equals the instant of that successful
claim. -/
theorem C10_amended_witness :
    (Runner.runIdle 10 ⟨0, false⟩
        [Runner.WEvent.claimSuccess 1, Runner.WEvent.claimFail 2]).idleStart
      = Runner.lastSuccessTime 0
          [Runner.WEvent.claimSuccess 1, Runner.WEvent.claimFail 2] := by
  refine C10_amended_idle_start_tracks_last_claim 10 0 _ ?_
  simp [Runner.runIdle, Runner.stepIdle, Runner.idleCheck]
  norm_num
